import Mathlib

/-!
Verification of the bookman market-analysis core against its specification.

The definitions below are a shallow embedding of the Python sources:
  * src/backend/market-analysis/src/models/market_data.py   (MarketData)
  * src/backend/market-analysis/src/services/prediction.py  (PredictionService)
  * src/backend/market-analysis/src/services/data_fetcher.py (DataFetcher)
Machine floats are modelled as exact rationals; the float divisions by zero
that Python turns into inf/nan are modelled explicitly at each site where the
source can hit them.  Clock readings (datetime.now) are passed as explicit
integer-second parameters.
-/

namespace Bookman

/-- Values stored in an observation's metadata dictionary. -/
inductive MetaVal where
  | num (q : ℚ)
  | str (s : String)
  deriving DecidableEq

/-- Update of an association list, with Python dict semantics: an existing
binding for the key is replaced, otherwise the binding is appended. -/
def assocUpdate {κ α : Type} [DecidableEq κ] (m : List (κ × α)) (k : κ) (v : α) :
    List (κ × α) :=
  (m.filter fun p => decide (p.1 ≠ k)) ++ [(k, v)]

/-- Lookup in an association list (Python dict read). -/
def assocFind {κ α : Type} [DecidableEq κ] (m : List (κ × α)) (k : κ) : Option α :=
  (m.find? fun p => decide (p.1 = k)).map (·.2)

/-- Python dict merge: entries of the second dict override the first. -/
def dictMerge {κ α : Type} [DecidableEq κ] (a b : List (κ × α)) : List (κ × α) :=
  b.foldl (fun m p => assocUpdate m p.1 p.2) a

/-- Raw observation dictionary passed to `MarketData.__init__`
(market_data.py line 51): the fields of the pydantic model before validation. -/
structure RawObservation where
  symbol : String
  price : ℚ
  volume : ℚ
  change_24h : ℚ
  timestamp : Option Int := none
  market_cap : Option ℚ := none
  circulating_supply : Option ℚ := none
  rank : Option Int := none
  volatility_index : Option ℚ := none
  metadata : List (String × MetaVal) := []
  deriving DecidableEq

/-- Character class of the pydantic symbol regex `^[A-Z0-9]{2,10}$`. -/
def validSymbolChar (c : Char) : Bool :=
  (decide ('A' ≤ c) && decide (c ≤ 'Z')) || (decide ('0' ≤ c) && decide (c ≤ '9'))

/-- Pydantic symbol field validation: length 2..10 and the regex above
(market_data.py line 33). -/
def validSymbol (s : String) : Bool :=
  decide (2 ≤ s.length) && decide (s.length ≤ 10) && s.data.all validSymbolChar

/-- Python `round(x, p)` on an exact rational (round to `p` decimal places). -/
def roundTo (q : ℚ) (p : ℕ) : ℚ :=
  (round (q * 10 ^ p) : ℤ) / 10 ^ p

/-- Conjunction of the pydantic field validators of `MarketData`
(market_data.py lines 33-41): price > 0, volume ≥ 0, change_24h in [-100, 1000],
optional fields nonnegative (rank positive), symbol matching the regex. -/
def fieldValid (r : RawObservation) : Bool :=
  validSymbol r.symbol
    && decide (0 < r.price)
    && decide (0 ≤ r.volume)
    && decide (-100 ≤ r.change_24h)
    && decide (r.change_24h ≤ 1000)
    && r.market_cap.all (fun v => decide (0 ≤ v))
    && r.circulating_supply.all (fun v => decide (0 ≤ v))
    && r.rank.all (fun v => decide (0 < v))
    && r.volatility_index.all (fun v => decide (0 ≤ v))

/-- Validated `MarketData` observation (market_data.py lines 28-75). -/
structure MarketData where
  symbol : String
  price : ℚ
  volume : ℚ
  change_24h : ℚ
  timestamp : Int
  market_cap : Option ℚ
  circulating_supply : Option ℚ
  rank : Option Int
  volatility_index : Option ℚ
  metadata : List (String × MetaVal)
  deriving DecidableEq

/-- Modelled from the spec: `MarketData._calculate_quality_score` is invoked by
`MarketData.__init__` (market_data.py line 74) but its body is nowhere in the
source tree.  The spec grants design freedom in the exact formula and requires
only that the score be deterministic given the same inputs; we model it as a
field-completeness score over the optional fields of the raw observation. -/
def calculateQualityScore (r : RawObservation) : ℚ :=
  let optionalPresent : List Bool :=
    [r.market_cap.isSome, r.circulating_supply.isSome,
     r.rank.isSome, r.volatility_index.isSome]
  (1 + (optionalPresent.count true : ℚ)) / 5

/-- Embedding of `MarketData.__init__` (market_data.py lines 51-75): pydantic
field validation (returning `none` on a validation error), price and volume
rounded to their configured precisions by the field validators, then the
metadata dictionary is updated with a validation timestamp and the computed
`data_quality_score`.  The `now` parameter is the clock read by
`datetime.now(timezone.utc)`. -/
def mkMarketData (r : RawObservation) (now : Int) : Option MarketData :=
  if fieldValid r then
    some
      { symbol := r.symbol
        price := roundTo r.price 8
        volume := roundTo r.volume 2
        change_24h := r.change_24h
        timestamp := r.timestamp.getD now
        market_cap := r.market_cap
        circulating_supply := r.circulating_supply
        rank := r.rank
        volatility_index := r.volatility_index
        metadata :=
          assocUpdate
            (assocUpdate r.metadata "validation_timestamp" (.str (toString now)))
            "data_quality_score" (.num (calculateQualityScore r)) }
  else none

/-- Population mean, `numpy.mean` (and the mean of a pandas Series). -/
def npMean (l : List ℚ) : ℚ :=
  l.sum / l.length

/-- Population variance, the square of `numpy.std` (ddof = 0). -/
def npVar (l : List ℚ) : ℚ :=
  ((l.map fun x => (x - npMean l) ^ 2).sum) / l.length

/-- The previous-price comparison of `validate_price`
(market_data.py lines 157-161).  The `if previous_price:` guard is Python
truthiness: a supplied previous price of 0 skips the delta check. -/
def prevRejects (price : ℚ) : Option ℚ → Bool
  | some p => if p ≠ 0 then decide (|price - p| / p > 1/4) else false
  | none => false

/-- The statistical z-score check of `validate_price`
(market_data.py lines 163-172).  The float test `abs(price - mean) / std > 3`
divides by a zero standard deviation to give inf (rejected) when the price
differs from the mean and nan (accepted) otherwise; squaring renders that
exactly as `(price - mean)^2 > 9 * var`. -/
def histRejects (price : ℚ) : Option (List ℚ) → Bool
  | some hs =>
      if hs ≠ [] ∧ 24 ≤ hs.length then
        decide ((price - npMean hs) ^ 2 > 9 * npVar hs)
      else false
  | none => false

/-- Embedding of `MarketData.validate_price` (market_data.py lines 141-174):
the basic range check, then the previous-price delta check, then the
historical z-score check. -/
def validate_price (price : ℚ) (previousPrice : Option ℚ)
    (historicalPrices : Option (List ℚ)) : Bool :=
  if ¬(0 < price ∧ price < 10 ^ 15) then false
  else if prevRejects price previousPrice then false
  else if histRejects price historicalPrices then false
  else true

/-- The rejection condition of claim C4, read literally (with the Lean
convention that division by zero is zero for the z-score formula, using the
real square root for the standard deviation). -/
def claimC4Reject (price : ℚ) (previousPrice : Option ℚ)
    (historicalPrices : Option (List ℚ)) : Prop :=
  ¬(0 < price ∧ price < 10 ^ 15)
    ∨ (∃ p, previousPrice = some p ∧ |price - p| / p > 1/4)
    ∨ (∃ hs, historicalPrices = some hs ∧ 24 ≤ hs.length ∧
        |(price : ℝ) - (npMean hs : ℚ)| / Real.sqrt ((npVar hs : ℚ) : ℝ) > 3)

/-- The rejection condition of claim C4 with the z-score clause amended to the
float semantics of the source: at zero variance the division by a zero standard
deviation rejects exactly when the price differs from the window mean, which
squaring renders exactly as `(price - mean)^2 > 9 * var`. -/
def amendedC4Reject (price : ℚ) (previousPrice : Option ℚ)
    (historicalPrices : Option (List ℚ)) : Prop :=
  ¬(0 < price ∧ price < 10 ^ 15)
    ∨ (∃ p, previousPrice = some p ∧ |price - p| / p > 1/4)
    ∨ (∃ hs, historicalPrices = some hs ∧ 24 ≤ hs.length ∧
        (price - npMean hs) ^ 2 > 9 * npVar hs)

/-! Risk metrics of `PredictionService.get_risk_metrics`
(prediction.py lines 256-293), over one window's return series. -/

/-- Sample variance, the square of the pandas `Series.std()` (ddof = 1). -/
def sampleVar (l : List ℚ) : ℚ :=
  ((l.map fun x => (x - npMean l) ^ 2).sum) / ((l.length : ℚ) - 1)

/-- Standard deviation of a pandas Series, `returns.std()`. -/
noncomputable def sampleStd (l : List ℚ) : ℝ :=
  Real.sqrt ((sampleVar l : ℚ) : ℝ)

/-- Linear interpolation of a sorted sample at fractional rank `p`: the value
between the entries at positions `⌊p⌋` and `⌊p⌋ + 1`. -/
def interpSorted (s : List ℚ) (p : ℚ) : ℚ :=
  match s[(⌊p⌋).toNat]?, s[(⌊p⌋).toNat + 1]? with
  | some a, some b => a + (p - (⌊p⌋).toNat) * (b - a)
  | some a, none => a
  | none, _ => 0

/-- Embedding of `numpy.percentile` with its default linear interpolation:
the value of the sorted data at fractional rank `q / 100 * (n - 1)`. -/
def npPercentile (l : List ℚ) (q : ℚ) : ℚ :=
  let s := List.insertionSort (· ≤ ·) l
  interpSorted s (q * ((s.length : ℚ) - 1) / 100)

/-- Tail mean `returns[returns <= v].mean()` used for CVaR
(prediction.py lines 265-266). -/
def cvarAt (l : List ℚ) (v : ℚ) : ℚ :=
  npMean (l.filter fun r => decide (r ≤ v))

/-- Pandas `cumprod` of a series. -/
def cumprod (l : List ℚ) : List ℚ :=
  (l.scanl (· * ·) 1).tail

/-- Pandas `expanding().max()` of a series. -/
def runningMax : List ℚ → List ℚ
  | [] => []
  | x :: xs => xs.scanl max x

/-- Minimum of a series, pandas `Series.min()` (0 on the empty series the
claims never exercise). -/
def seriesMin : List ℚ → ℚ
  | [] => 0
  | x :: xs => xs.foldl min x

/-- Rational-valued risk metrics of one analysis window
(prediction.py lines 258-293). -/
structure RiskWindowMetrics where
  var95 : ℚ
  var99 : ℚ
  cvar95 : ℚ
  cvar99 : ℚ
  maxDrawdown : ℚ
  deriving DecidableEq

/-- The per-window risk computation of `get_risk_metrics` on the log-return
series: VaR(95) and VaR(99) as the 5th and 1st percentiles, CVaR as the mean
of the returns at or below the corresponding VaR, and the maximum drawdown of
the cumulative return path (prediction.py lines 260-279). -/
def riskWindow (returns : List ℚ) : RiskWindowMetrics :=
  let var95 := npPercentile returns 5
  let var99 := npPercentile returns 1
  let cum := cumprod (returns.map fun r => 1 + r)
  let drawdowns := List.zipWith (fun c m => c / m - 1) cum (runningMax cum)
  { var95 := var95
    var99 := var99
    cvar95 := cvarAt returns var95
    cvar99 := cvarAt returns var99
    maxDrawdown := seriesMin drawdowns }

/-- Annualized volatility `returns.std() * sqrt(252)` (prediction.py line 269). -/
noncomputable def annualizedVol (returns : List ℚ) : ℝ :=
  sampleStd returns * Real.sqrt 252

/-- Excess-return series `returns - 0.02/252` (prediction.py line 272). -/
def excessReturns (returns : List ℚ) : List ℚ :=
  returns.map fun r => r - 0.02 / 252

/-- Sharpe ratio `sqrt(252) * excess_returns.mean() / returns.std()`
(prediction.py line 273).  The division is the float division of the source:
its divisor `sampleStd returns` can be zero, in which case Python produces an
infinity, not the zero that Lean's total division would suggest. -/
noncomputable def sharpeRatio (returns : List ℚ) : ℝ :=
  Real.sqrt 252 * ((npMean (excessReturns returns) : ℚ) : ℝ) / sampleStd returns

/-- Log-return series `np.log(close / close.shift(1)).dropna()` of the close
column (prediction.py line 258). -/
noncomputable def logReturns (closes : List ℝ) : List ℝ :=
  (closes.zip closes.tail).map fun p => Real.log (p.2 / p.1)

/-! The prediction orchestration of `PredictionService.predict_price`
(prediction.py lines 69-159) as an explicit state transformer over the
prediction cache, with the external collaborators (data fetcher and trained
predictor) supplied as an environment. -/

/-- Prediction horizons accepted by `predict_price` (prediction.py line 29). -/
def PREDICTION_HORIZONS : List ℕ := [1, 7, 30, 90]

/-- Confidence levels accepted by `predict_price` (prediction.py line 30). -/
def CONFIDENCE_LEVELS : List ℚ := [0.68, 0.95, 0.99]

/-- Cache time-to-live in seconds (prediction.py line 31). -/
def CACHE_TTL : Int := 300

/-- Python `timedelta.seconds` of a whole-second difference: the normalized
sub-day component, in [0, 86400). -/
def timedeltaSeconds (age : Int) : Int := age % 86400

/-- Result payload of a successful `predict_price` call
(prediction.py lines 131-146). -/
structure PredictionResult where
  symbol : String
  horizon : ℕ
  resultTimestamp : Int
  mean : ℚ
  lower : ℚ
  upper : ℚ
  metrics : List (String × ℝ)

/-- One prediction cache entry: result payload plus creation time
(prediction.py lines 150-153). -/
structure CacheEntry where
  data : PredictionResult
  timestamp : Int

/-- The prediction cache keyed by `(symbol, horizon, confidence_level)`. -/
abbrev PredCache := List ((String × ℕ × ℚ) × CacheEntry)

/-- Externally observable side effects of one `predict_price` call: whether
historical data was fetched and whether the predictor model was invoked. -/
structure PredEffects where
  fetched : Bool
  predicted : Bool
  deriving DecidableEq

/-- Collaborator snapshot for one computation: the close column of the fetched
90-day history, the predictor output arrays, and the predictor's own metrics. -/
structure PredEnv where
  history : List ℚ
  predictions : List ℚ
  intervals : List ℚ
  modelMetrics : List (String × ℝ)

/-- Errors raised by `predict_price` (prediction.py lines 90-93 and 111-112). -/
inductive PredError where
  | invalidHorizon
  | invalidConfidence
  | noData
  deriving DecidableEq

/-- Pandas `pct_change()` with the leading NaN dropped. -/
def pctChange (l : List ℚ) : List ℚ :=
  (l.zip l.tail).map fun p => p.2 / p.1 - 1

/-- Quality metrics of `_calculate_prediction_quality`
(prediction.py lines 315-327). -/
noncomputable def calcPredictionQuality (hist predictions intervals : List ℚ) :
    List (String × ℝ) :=
  [("historical_volatility", Real.sqrt ((sampleVar (pctChange hist) : ℚ) : ℝ)),
   ("prediction_std", Real.sqrt ((npVar predictions : ℚ) : ℝ)),
   ("confidence_interval_width", ((npMean intervals : ℚ) : ℝ)),
   ("data_quality_score", (((hist.length : ℚ) / 90 : ℚ) : ℝ))]

/-- The result payload assembled by `predict_price`
(prediction.py lines 131-146): symmetric bounds `mean ∓ interval` around the
predictor mean, and the predictor metrics merged with the quality metrics. -/
noncomputable def buildResult (env : PredEnv) (now : Int) (symbol : String)
    (horizon : ℕ) : PredictionResult :=
  { symbol := symbol
    horizon := horizon
    resultTimestamp := now
    mean := env.predictions.headI
    lower := env.predictions.headI - env.intervals.headI
    upper := env.predictions.headI + env.intervals.headI
    metrics := dictMerge env.modelMetrics
      (calcPredictionQuality env.history env.predictions env.intervals) }

/-- The cache-miss computation path of `predict_price`
(prediction.py lines 102-155): fetch 90 days of history (error when empty),
invoke the predictor, assemble the result payload, and update the cache — the
write at line 149 is guarded by `if use_cache:`. -/
noncomputable def computePrediction (env : PredEnv) (cache : PredCache) (now : Int)
    (symbol : String) (horizon : ℕ) (confidence : ℚ) (useCache : Bool) :
    Except PredError (PredictionResult × PredCache × PredEffects) :=
  if env.history = [] then .error .noData
  else
    let result := buildResult env now symbol horizon
    let cacheNext :=
      if useCache then
        assocUpdate cache (symbol, horizon, confidence) ⟨result, now⟩
      else cache
    .ok (result, cacheNext, ⟨true, true⟩)

/-- Embedding of `PredictionService.predict_price` (prediction.py lines 69-159):
validate horizon and confidence level against the fixed enumerations, consult
the cache when `use_cache` is set — comparing `timedelta.seconds` of the entry
age against the TTL (line 99) — and otherwise run the computation path. -/
noncomputable def predict_price (env : PredEnv) (cache : PredCache) (now : Int)
    (symbol : String) (horizon : ℕ) (confidence : ℚ) (useCache : Bool) :
    Except PredError (PredictionResult × PredCache × PredEffects) :=
  if horizon ∉ PREDICTION_HORIZONS then .error .invalidHorizon
  else if confidence ∉ CONFIDENCE_LEVELS then .error .invalidConfidence
  else
    match (if useCache then assocFind cache (symbol, horizon, confidence) else none) with
    | some entry =>
        if timedeltaSeconds (now - entry.timestamp) < CACHE_TTL then
          .ok (entry.data, cache, ⟨false, false⟩)
        else
          computePrediction env cache now symbol horizon confidence useCache
    | none => computePrediction env cache now symbol horizon confidence useCache

/-! Trend signal generation of `PredictionService._generate_trend_signals`
(prediction.py lines 378-414). -/

/-- Last value of `close.rolling(window=w).mean()`: the mean of the last `w`
closes, NaN (modelled as `none`) when fewer than `w` rows exist. -/
def rollingMeanLast (l : List ℚ) (w : ℕ) : Option ℚ :=
  if l.length < w then none else some (npMean (l.drop (l.length - w)))

/-- Float strict comparison with NaN semantics: a comparison against a missing
(NaN) value is false. -/
def optGT : Option ℚ → Option ℚ → Bool
  | some a, some b => decide (a > b)
  | _, _ => false

/-- Trend signals returned by `_generate_trend_signals`. -/
structure TrendSignals where
  direction : String
  strength : ℚ
  confidence : ℚ
  quality_score : ℚ
  deriving DecidableEq

/-- Embedding of `_generate_trend_signals` (prediction.py lines 378-414) on the
close column, with the latest RSI value and MACD histogram of the requested
indicators passed in (absent when not requested).  The quality score at line
413 is `len(data) / 90` with no cap. -/
def generate_trend_signals (closes : List ℚ) (rsi macdHist : Option ℚ) :
    TrendSignals :=
  let shortMa := rollingMeanLast closes 10
  let longMa := rollingMeanLast closes 30
  let price := closes.getLast?
  let dirStrength : String × ℚ :=
    if optGT price shortMa && optGT shortMa longMa then
      ("bullish", min ((price.getD 0 - longMa.getD 0) / longMa.getD 0 * 100) 100)
    else if optGT shortMa price && optGT longMa shortMa then
      ("bearish", min ((longMa.getD 0 - price.getD 0) / longMa.getD 0 * 100) 100)
    else ("neutral", 0)
  let signals : List Int :=
    (match rsi with
     | some r => [if r > 50 then (1 : Int) else -1]
     | none => []) ++
    (match macdHist with
     | some m => [if m > 0 then (1 : Int) else -1]
     | none => [])
  let confidence : ℚ :=
    if signals ≠ [] then |(signals.sum : ℚ) / (signals.length : ℚ)| else 0.5
  { direction := dirStrength.1
    strength := dirStrength.2
    confidence := confidence
    quality_score := (closes.length : ℚ) / 90 }

/-! Data fetcher embedding (data_fetcher.py): the circuit breaker wrapped
around `fetch_real_time_data` and the per-item validation loop. -/

/-- Circuit breaker threshold passed to the decorator
(data_fetcher.py line 30): `circuitbreaker.circuit(failure_threshold=0.5)`. -/
def CIRCUIT_BREAKER_THRESHOLD : ℚ := 0.5

/-- Recovery timeout of the circuitbreaker library (v1.4.0 default, seconds). -/
def RECOVERY_TIMEOUT : Int := 30

/-- State of the circuitbreaker v1.4.0 decorator instance: the consecutive
failure counter, whether the breaker is open, and when it opened. -/
structure BreakerState where
  failureCount : ℕ
  isOpen : Bool
  openedAt : Int
  deriving DecidableEq

/-- Outcome of one call through the breaker: failed fast without a network
attempt, attempted and succeeded, or attempted and failed in transport. -/
inductive BreakerCallResult where
  | failedFast
  | succeeded
  | transportFailed
  deriving DecidableEq

/-- One call of the decorated `fetch_real_time_data` through the circuitbreaker
v1.4.0 state machine (data_fetcher.py lines 87-93): while open and within the
recovery timeout the call raises `CircuitBreakerError` without invoking the
wrapped function; otherwise the wrapped call runs (`outcome` is its transport
result), a success closes the breaker and resets the counter, and a failure
increments the consecutive-failure counter and opens the breaker once the
counter reaches `failure_threshold`. -/
def breakerCall (st : BreakerState) (now : Int) (outcome : Bool) :
    BreakerCallResult × BreakerState :=
  if st.isOpen ∧ now - st.openedAt < RECOVERY_TIMEOUT then
    (.failedFast, st)
  else if outcome then
    (.succeeded, { failureCount := 0, isOpen := false, openedAt := st.openedAt })
  else
    let fc := st.failureCount + 1
    if (fc : ℚ) ≥ CIRCUIT_BREAKER_THRESHOLD then
      (.transportFailed, { failureCount := fc, isOpen := true, openedAt := now })
    else
      (.transportFailed, { failureCount := fc, isOpen := st.isOpen, openedAt := st.openedAt })

/-- Fold of `breakerCall` over a sequence of timed call outcomes. -/
def breakerRun (st : BreakerState) (calls : List (Int × Bool)) : BreakerState :=
  calls.foldl (fun s c => (breakerCall s c.1 c.2).2) st

/-- Rolling failure ratio over a number of attempted calls, as claim C7 reads
it: failures divided by total attempts. -/
def failureRatio (attempts failures : ℕ) : ℚ :=
  (failures : ℚ) / (attempts : ℚ)

/-- Pure core of `DataFetcher._validate_cross_exchange`
(data_fetcher.py lines 263-294): `fetched` is the list of alternate-exchange
prices, `none` when the fetch itself raised.  Any exception — including the
ZeroDivisionError of an empty price list — is caught and turned into a
fail-open `true`; otherwise the relative deviation of the candidate price from
the mean alternate price is compared against the 5% threshold (a zero mean
makes the float deviation inf or nan, both of which fail the `<= 0.05` test). -/
def validate_cross_exchange (price : ℚ) (fetched : Option (List ℚ)) : Bool :=
  match fetched with
  | none => true
  | some [] => true
  | some ps =>
      let avg := npMean ps
      if avg = 0 then false
      else decide (|price - avg| / avg ≤ 1/20)

/-- The per-item processing loop of `fetch_real_time_data`
(data_fetcher.py lines 127-139): construct a `MarketData` from each raw item
(skipping items whose construction raises), call the cross-exchange check when
requested — its boolean result is bound to no variable and discarded — and
append every successfully constructed observation. -/
def processItems (items : List RawObservation)
    (alt : RawObservation → Option (List ℚ)) (validateCross : Bool)
    (now : Int) : List MarketData :=
  items.filterMap fun it =>
    match mkMarketData it now with
    | some md =>
        let _ := if validateCross then validate_cross_exchange md.price (alt it) else true
        some md
    | none => none

/-! Concrete example inputs used to instantiate the theorems below. -/

/-- A raw ticker item as returned by the exchange ticker endpoint. -/
def rawBTC : RawObservation :=
  { symbol := "BTC", price := 100, volume := 5, change_24h := 2 }

/-- The observation `MarketData.__init__` builds from `rawBTC` at clock 0. -/
def mdBTC : MarketData :=
  { symbol := "BTC", price := 100, volume := 5, change_24h := 2, timestamp := 0
    market_cap := none, circulating_supply := none, rank := none
    volatility_index := none
    metadata := [("validation_timestamp", .str "0"),
                 ("data_quality_score", .num (1/5))] }

/-- A collaborator snapshot on which the computation path succeeds. -/
def exEnv : PredEnv :=
  { history := [100, 101], predictions := [50], intervals := [5], modelMetrics := [] }

/-- A collaborator snapshot with no data, used where no computation may run. -/
def emptyEnv : PredEnv :=
  { history := [], predictions := [], intervals := [], modelMetrics := [] }

/-- A cached prediction payload used to exercise the cache read path. -/
def dummyResult : PredictionResult :=
  { symbol := "BTC", horizon := 1, resultTimestamp := 0, mean := 42
    lower := 40, upper := 44, metrics := [] }

/-! Theorems.  Shared helper lemmas come first, then one theorem (plus
witness or counterexample) per claim. -/

theorem assocFind_assocUpdate {κ α : Type} [DecidableEq κ]
    (m : List (κ × α)) (k : κ) (v : α) :
    assocFind (assocUpdate m k v) k = some v := by
  have h1 : (m.filter fun p => decide (p.1 ≠ k)).find?
      (fun p => decide (p.1 = k)) = none := by
    rw [List.find?_eq_none]
    intro x hx
    have hne := (List.mem_filter.mp hx).2
    simp only [decide_eq_true_eq] at hne ⊢
    exact hne
  unfold assocFind assocUpdate
  rw [List.find?_append, h1]
  simp [List.find?]

/-- C1: every raw observation dictionary accepted by the field validators
yields a `MarketData` whose metadata records a `data_quality_score`, and the
recorded score is a deterministic function of the raw input alone: two
constructions from equal inputs, even at different clock readings, record the
same score. -/
theorem mkMarketData_records_quality_score (r : RawObservation) (now nowB : Int)
    (h : (mkMarketData r now).isSome = true) :
    ((mkMarketData r now).bind fun md => assocFind md.metadata "data_quality_score")
        = some (.num (calculateQualityScore r)) ∧
    ((mkMarketData r now).bind fun md => assocFind md.metadata "data_quality_score")
        = ((mkMarketData r nowB).bind fun md => assocFind md.metadata "data_quality_score") := by
  unfold mkMarketData at h ⊢
  by_cases hv : fieldValid r
  · simp only [hv, if_true, Option.some_bind]
    rw [assocFind_assocUpdate, assocFind_assocUpdate]
    exact ⟨rfl, rfl⟩
  · simp [hv] at h

theorem mkMarketData_records_quality_score_witness :
    (mkMarketData rawBTC 0).isSome = true ∧
    ((mkMarketData rawBTC 0).bind fun md => assocFind md.metadata "data_quality_score")
        = some (.num (calculateQualityScore rawBTC)) :=
  ⟨by decide, (mkMarketData_records_quality_score rawBTC 0 5 (by decide)).1⟩

/-- C10: the cache freshness test in `predict_price` compares only the sub-day
seconds component (`timedelta.seconds`) of the entry age against the 300-second
TTL, so an entry aged exactly one day plus 10 seconds — far beyond the TTL — is
still returned as a fresh hit, with no data fetch and no predictor invocation. -/
theorem predict_price_stale_subday_hit (env : PredEnv) (sym : String) (h : ℕ)
    (cl : ℚ) (e : CacheEntry) (now : Int)
    (hh : h ∈ PREDICTION_HORIZONS) (hc : cl ∈ CONFIDENCE_LEVELS)
    (hage : now - e.timestamp = 86410) :
    CACHE_TTL < now - e.timestamp ∧
    predict_price env [((sym, h, cl), e)] now sym h cl true
      = .ok (e.data, [((sym, h, cl), e)], ⟨false, false⟩) := by
  have hfresh : timedeltaSeconds (now - e.timestamp) < CACHE_TTL := by
    rw [hage]; decide
  refine ⟨by rw [hage]; decide, ?_⟩
  unfold predict_price
  rw [if_neg (by simpa using hh), if_neg (by simpa using hc)]
  simp [assocFind, List.find?, hfresh]

theorem predict_price_stale_subday_hit_witness :
    ((1 ∈ PREDICTION_HORIZONS) ∧ ((0.95 : ℚ) ∈ CONFIDENCE_LEVELS) ∧
      (86410 : Int) - (⟨dummyResult, 0⟩ : CacheEntry).timestamp = 86410) ∧
    (CACHE_TTL < (86410 : Int) - (⟨dummyResult, 0⟩ : CacheEntry).timestamp ∧
      predict_price emptyEnv [(("BTC", 1, 0.95), ⟨dummyResult, 0⟩)] 86410 "BTC" 1 0.95 true
        = .ok ((⟨dummyResult, 0⟩ : CacheEntry).data,
               [(("BTC", 1, 0.95), ⟨dummyResult, 0⟩)], ⟨false, false⟩)) :=
  ⟨⟨by simp [PREDICTION_HORIZONS], by simp [CONFIDENCE_LEVELS], by decide⟩,
    predict_price_stale_subday_hit emptyEnv "BTC" 1 0.95 ⟨dummyResult, 0⟩ 86410
      (by simp [PREDICTION_HORIZONS]) (by simp [CONFIDENCE_LEVELS]) (by decide)⟩

/-- C5: with `use_cache = true`, a computed prediction is cached, and a second
call for the same `(symbol, horizon, confidence_level)` while the cached age is
below the 300-second TTL returns the identical result object — with no data
fetch and no predictor invocation, whatever the collaborators would now
return. -/
theorem predict_price_cache_idempotent (env1 env2 : PredEnv) (st : PredCache)
    (now1 now2 : Int) (sym : String) (h : ℕ) (cl : ℚ)
    (hh : h ∈ PREDICTION_HORIZONS) (hc : cl ∈ CONFIDENCE_LEVELS)
    (hdata : env1.history ≠ [])
    (hmiss : assocFind st (sym, h, cl) = none)
    (h0 : 0 ≤ now2 - now1) (httl : now2 - now1 < CACHE_TTL) :
    ∃ r st1, predict_price env1 st now1 sym h cl true = .ok (r, st1, ⟨true, true⟩) ∧
      predict_price env2 st1 now2 sym h cl true = .ok (r, st1, ⟨false, false⟩) := by
  have hmod : timedeltaSeconds (now2 - now1) = now2 - now1 := by
    unfold timedeltaSeconds
    exact Int.emod_eq_of_lt h0 (lt_trans httl (by decide))
  refine ⟨buildResult env1 now1 sym h,
          assocUpdate st (sym, h, cl) ⟨buildResult env1 now1 sym h, now1⟩, ?_, ?_⟩
  · unfold predict_price computePrediction
    rw [if_neg (by simpa using hh), if_neg (by simpa using hc)]
    simp [hmiss, hdata]
  · unfold predict_price
    rw [if_neg (by simpa using hh), if_neg (by simpa using hc)]
    simp [assocFind_assocUpdate, hmod, httl]

theorem predict_price_cache_idempotent_witness :
    ((1 ∈ PREDICTION_HORIZONS) ∧ ((0.95 : ℚ) ∈ CONFIDENCE_LEVELS) ∧
      exEnv.history ≠ [] ∧ assocFind ([] : PredCache) ("BTC", 1, (0.95 : ℚ)) = none ∧
      (0 : Int) ≤ 100 - 0 ∧ (100 : Int) - 0 < CACHE_TTL) ∧
    (∃ r st1, predict_price exEnv [] 0 "BTC" 1 0.95 true = .ok (r, st1, ⟨true, true⟩) ∧
      predict_price emptyEnv st1 100 "BTC" 1 0.95 true = .ok (r, st1, ⟨false, false⟩)) :=
  ⟨⟨by simp [PREDICTION_HORIZONS], by simp [CONFIDENCE_LEVELS], by decide, rfl,
      by decide, by decide⟩,
    predict_price_cache_idempotent exEnv emptyEnv [] 0 100 "BTC" 1 0.95
      (by simp [PREDICTION_HORIZONS]) (by simp [CONFIDENCE_LEVELS]) (by decide) rfl
      (by decide) (by decide)⟩

/-- C6 counterexample: a successful computation with `use_cache = false`
returns the cache unchanged — here still empty, holding no entry at all — so
the cache write is not performed regardless of `use_cache`: the write at
prediction.py line 149 sits under `if use_cache:`. -/
theorem predict_price_no_write_counterexample :
    (∃ r, predict_price exEnv [] 0 "BTC" 1 0.95 false
        = .ok (r, ([] : PredCache), ⟨true, true⟩)) ∧
    assocFind ([] : PredCache) ("BTC", 1, (0.95 : ℚ)) = none := by
  refine ⟨⟨buildResult exEnv 0 "BTC" 1, ?_⟩, rfl⟩
  unfold predict_price computePrediction
  rw [if_neg (by simp [PREDICTION_HORIZONS]), if_neg (by simp [CONFIDENCE_LEVELS])]
  simp [exEnv]

/-- C6 amended: `use_cache` gates the cache write as well as the read: a
successful computation with `use_cache = false` returns the cache unchanged,
while the same computation with `use_cache = true` writes its result under
`(symbol, horizon, confidence_level)`. -/
theorem predict_price_write_gated (env : PredEnv) (st : PredCache) (now : Int)
    (sym : String) (h : ℕ) (cl : ℚ)
    (hh : h ∈ PREDICTION_HORIZONS) (hc : cl ∈ CONFIDENCE_LEVELS)
    (hdata : env.history ≠ []) (hmiss : assocFind st (sym, h, cl) = none) :
    predict_price env st now sym h cl false
      = .ok (buildResult env now sym h, st, ⟨true, true⟩) ∧
    predict_price env st now sym h cl true
      = .ok (buildResult env now sym h,
             assocUpdate st (sym, h, cl) ⟨buildResult env now sym h, now⟩,
             ⟨true, true⟩) := by
  constructor
  · unfold predict_price computePrediction
    rw [if_neg (by simpa using hh), if_neg (by simpa using hc)]
    simp [hdata]
  · unfold predict_price computePrediction
    rw [if_neg (by simpa using hh), if_neg (by simpa using hc)]
    simp [hmiss, hdata]

theorem predict_price_write_gated_witness :
    ((1 ∈ PREDICTION_HORIZONS) ∧ ((0.95 : ℚ) ∈ CONFIDENCE_LEVELS) ∧
      exEnv.history ≠ [] ∧ assocFind ([] : PredCache) ("BTC", 1, (0.95 : ℚ)) = none) ∧
    (predict_price exEnv [] 7 "BTC" 1 0.95 false
        = .ok (buildResult exEnv 7 "BTC" 1, ([] : PredCache), ⟨true, true⟩) ∧
     predict_price exEnv [] 7 "BTC" 1 0.95 true
        = .ok (buildResult exEnv 7 "BTC" 1,
               assocUpdate ([] : PredCache) ("BTC", 1, 0.95)
                 ⟨buildResult exEnv 7 "BTC" 1, 7⟩, ⟨true, true⟩)) :=
  ⟨⟨by simp [PREDICTION_HORIZONS], by simp [CONFIDENCE_LEVELS], by decide, rfl⟩,
    predict_price_write_gated exEnv [] 7 "BTC" 1 0.95
      (by simp [PREDICTION_HORIZONS]) (by simp [CONFIDENCE_LEVELS]) (by decide) rfl⟩

/-- C7 counterexample: after one successful call and one transport failure the
rolling failure ratio is 1/2, which does not exceed the 0.5 threshold, yet the
next call fails fast without a network attempt: `failure_threshold=0.5` is a
consecutive-failure count for the circuitbreaker decorator, so the very first
failure already trips the breaker — no failure ratio is ever computed. -/
theorem breaker_trips_below_half_ratio :
    (breakerCall (breakerRun ⟨0, false, 0⟩ [(0, true), (10, false)]) 15 false).1
        = .failedFast ∧
    ¬ failureRatio 2 1 > CIRCUIT_BREAKER_THRESHOLD := by
  constructor
  · norm_num [breakerRun, breakerCall, RECOVERY_TIMEOUT, CIRCUIT_BREAKER_THRESHOLD]
  · unfold failureRatio CIRCUIT_BREAKER_THRESHOLD
    norm_num

/-- C7 amended: with `failure_threshold=0.5` the breaker trips once the
consecutive-failure count reaches 0.5, i.e. on the first transport failure;
in particular, after 6 consecutive transport failures (each attempted once the
previous 30-second cool-down had expired) a 7th call made within the cool-down
fails fast without a network attempt, and once the cool-down has expired the
next call attempts the network again. -/
theorem breaker_consecutive_failures_scenario :
    (breakerRun ⟨0, false, 0⟩ [(0, false)]).isOpen = true ∧
    breakerRun ⟨0, false, 0⟩
        [(0, false), (30, false), (60, false), (90, false), (120, false), (150, false)]
      = ⟨6, true, 150⟩ ∧
    breakerCall ⟨6, true, 150⟩ 155 false = (.failedFast, ⟨6, true, 150⟩) ∧
    (breakerCall ⟨6, true, 150⟩ 180 false).1 = .transportFailed := by
  refine ⟨?_, ?_, ?_, ?_⟩ <;>
    norm_num [breakerRun, breakerCall, RECOVERY_TIMEOUT, CIRCUIT_BREAKER_THRESHOLD]

theorem trend_quality_eq (closes : List ℚ) (rsi macdHist : Option ℚ) :
    (generate_trend_signals closes rsi macdHist).quality_score
      = (closes.length : ℚ) / 90 := rfl

/-- C8 counterexample: on a series of 180 data points the quality score
reported by `_generate_trend_signals` is 180/90 = 2, not the claimed
`min(len(series)/90, 1) = 1`: the source computes `len(data) / 90` with no
cap. -/
theorem trend_quality_score_uncapped :
    (generate_trend_signals (List.replicate 180 1) none none).quality_score
      ≠ min (((List.replicate 180 (1 : ℚ)).length : ℚ) / 90) 1 := by
  rw [trend_quality_eq]
  norm_num

/-- C8 amended: the quality score reported by trend analysis equals
`len(series) / 90` with no cap, and in particular exceeds 1 whenever the
series holds more than 90 data points. -/
theorem trend_quality_score_formula (closes : List ℚ) (rsi macdHist : Option ℚ) :
    (generate_trend_signals closes rsi macdHist).quality_score
        = (closes.length : ℚ) / 90 ∧
    (90 < closes.length →
      1 < (generate_trend_signals closes rsi macdHist).quality_score) := by
  refine ⟨trend_quality_eq closes rsi macdHist, fun hlen => ?_⟩
  rw [trend_quality_eq, lt_div_iff₀ (by norm_num), one_mul]
  exact_mod_cast hlen

set_option maxRecDepth 4000 in
theorem trend_quality_score_formula_witness :
    90 < (List.replicate 180 (1 : ℚ)).length ∧
    1 < (generate_trend_signals (List.replicate 180 1) none none).quality_score :=
  ⟨by simp,
    (trend_quality_score_formula (List.replicate 180 1) none none).2 (by simp)⟩

theorem processItems_eq_filterMap (items : List RawObservation)
    (alt : RawObservation → Option (List ℚ)) (b : Bool) (now : Int) :
    processItems items alt b now = items.filterMap fun it => mkMarketData it now := by
  unfold processItems
  induction items with
  | nil => rfl
  | cons a t ih =>
      simp only [List.filterMap_cons]
      cases h : mkMarketData a now <;> simp_all

/-- C9: in `fetch_real_time_data` with cross-exchange validation requested, the
boolean computed by `_validate_cross_exchange` is discarded: the processed list
does not depend on the alternate-exchange prices nor on the validation flag,
every observation whose construction succeeds is included, and the check really
can compute `false` (here at relative deviation 1/2 > 0.05) without filtering
anything out. -/
theorem processItems_ignores_cross_exchange (items : List RawObservation)
    (alt altB : RawObservation → Option (List ℚ)) (now : Int) :
    processItems items alt true now = processItems items altB false now ∧
    (∀ it ∈ items, ∀ h : (mkMarketData it now).isSome = true,
      (mkMarketData it now).get h ∈ processItems items alt true now) ∧
    validate_cross_exchange 100 (some [200]) = false := by
  refine ⟨?_, ?_, ?_⟩
  · rw [processItems_eq_filterMap, processItems_eq_filterMap]
  · intro it hit h
    rw [processItems_eq_filterMap]
    exact List.mem_filterMap.mpr ⟨it, hit, (Option.some_get h).symm⟩
  · unfold validate_cross_exchange npMean
    norm_num

theorem processItems_ignores_cross_exchange_witness :
    (rawBTC ∈ [rawBTC] ∧ (mkMarketData rawBTC 0).isSome = true) ∧
    (mkMarketData rawBTC 0).get (by decide)
        ∈ processItems [rawBTC] (fun _ => some [200]) true 0 :=
  ⟨⟨by simp, by decide⟩,
    (processItems_ignores_cross_exchange [rawBTC] (fun _ => some [200])
      (fun _ => none) 0).2.1 rawBTC (by simp) (by decide)⟩

theorem prevRejects_iff (price : ℚ) (previousPrice : Option ℚ) :
    prevRejects price previousPrice = true ↔
      ∃ p, previousPrice = some p ∧ |price - p| / p > 1/4 := by
  cases previousPrice with
  | none => simp [prevRejects]
  | some p =>
      by_cases hp : p = 0
      · subst hp
        simp [prevRejects, div_zero]
      · simp [prevRejects, hp]

theorem histRejects_iff (price : ℚ) (historicalPrices : Option (List ℚ)) :
    histRejects price historicalPrices = true ↔
      ∃ hs, historicalPrices = some hs ∧ 24 ≤ hs.length ∧
        (price - npMean hs) ^ 2 > 9 * npVar hs := by
  cases historicalPrices with
  | none => simp [histRejects]
  | some hs =>
      by_cases hlen : 24 ≤ hs.length
      · have hne : hs ≠ [] := by
          intro h
          rw [h] at hlen
          simp at hlen
        simp [histRejects, hlen, hne]
      · simp [histRejects, hlen]

/-- C4 counterexample: with a 24-point historical window of identical prices
the window's standard deviation is zero, so the claimed rejection condition
`|price - mean| / stddev > 3` does not hold (a division by zero is never
greater than 3), yet `validate_price` returns false: the source's float
division by a zero standard deviation produces inf, which it compares against
3 and rejects. -/
theorem validate_price_zero_std_counterexample :
    validate_price 200 none (some (List.replicate 24 100)) = false ∧
    ¬ claimC4Reject 200 none (some (List.replicate 24 100)) := by
  have hmean : npMean (List.replicate 24 (100 : ℚ)) = 100 := by
    unfold npMean
    rw [List.sum_replicate, nsmul_eq_mul, List.length_replicate]
    norm_num
  have hvar : npVar (List.replicate 24 (100 : ℚ)) = 0 := by
    unfold npVar
    rw [hmean]
    simp [List.map_replicate]
  constructor
  · norm_num [validate_price, prevRejects, histRejects, hmean, hvar]
  · rintro (hrange | ⟨p, hp, _⟩ | ⟨hs, hhs, _, hz⟩)
    · exact hrange ⟨by norm_num, by norm_num⟩
    · exact Option.noConfusion hp
    · have hhs2 : hs = List.replicate 24 100 := (Option.some.inj hhs).symm
      subst hhs2
      rw [hvar] at hz
      norm_num [Real.sqrt_zero] at hz

/-- C4 amended: `validate_price` returns false exactly when the price is not
strictly between 0 and 1e15, or a supplied previous price flags a relative
change strictly above 0.25, or a supplied historical window of at least 24
points flags a z-score strictly above 3 — the z-score comparison taken with
the source's float semantics, rendered exactly as `(price - mean)^2 > 9 * var`
(so a zero-variance window rejects exactly the prices different from its
mean). -/
theorem validate_price_iff (price : ℚ) (previousPrice : Option ℚ)
    (historicalPrices : Option (List ℚ)) :
    validate_price price previousPrice historicalPrices = false ↔
      amendedC4Reject price previousPrice historicalPrices := by
  unfold validate_price amendedC4Reject
  rw [← prevRejects_iff, ← histRejects_iff]
  by_cases h1 : 0 < price ∧ price < 10 ^ 15
  · rw [if_neg (not_not_intro h1)]
    by_cases h2 : prevRejects price previousPrice
    · simp [h2, h1]
    · by_cases h3 : histRejects price historicalPrices
      · simp [h2, h3, h1]
      · simp [h2, h3, h1]
  · simp [h1]

theorem toNat_floor_cast (p : ℚ) (hp0 : 0 ≤ p) :
    (((⌊p⌋).toNat : ℚ)) = ((⌊p⌋ : ℤ) : ℚ) := by
  exact_mod_cast congrArg (fun z : ℤ => (z : ℚ))
    (Int.toNat_of_nonneg (Int.floor_nonneg.mpr hp0))

theorem toNat_floor_lt_length (s : List ℚ) (p : ℚ) (hp0 : 0 ≤ p)
    (hp1 : p ≤ (s.length : ℚ) - 1) : (⌊p⌋).toNat < s.length := by
  have h3 : (⌊p⌋ : ℚ) ≤ ((s.length : ℤ) : ℚ) - 1 := by
    exact_mod_cast le_trans (Int.floor_le p) hp1
  have h2 : ⌊p⌋ ≤ (s.length : ℤ) - 1 := by exact_mod_cast h3
  have h4 : (0 : ℤ) ≤ ⌊p⌋ := Int.floor_nonneg.mpr hp0
  omega

theorem interpSorted_ge_head (s : List ℚ) (hs : List.Sorted (· ≤ ·) s)
    (p : ℚ) (hp0 : 0 ≤ p) (hp1 : p ≤ (s.length : ℚ) - 1) (hne : s ≠ []) :
    ∃ a ∈ s, a ≤ interpSorted s p := by
  have hn : 0 < s.length := List.length_pos.mpr hne
  set i := (⌊p⌋).toNat with hidef
  have hicast : (i : ℚ) = ((⌊p⌋ : ℤ) : ℚ) := toNat_floor_cast p hp0
  have hile : (i : ℚ) ≤ p := by rw [hicast]; exact Int.floor_le p
  have hf0 : (0 : ℚ) ≤ p - i := by linarith
  have hilt : i < s.length := toNat_floor_lt_length s p hp0 hp1
  have hgets : s[i]? = some s[i] := List.getElem?_eq_getElem hilt
  have hhead : s[0] ≤ s[i] := by
    have h5 := hs.rel_get_of_le (a := ⟨0, hn⟩) (b := ⟨i, hilt⟩)
      (Fin.mk_le_mk.mpr (Nat.zero_le i))
    simpa [List.get_eq_getElem] using h5
  refine ⟨s[0], List.getElem_mem hn, ?_⟩
  unfold interpSorted
  rw [← hidef, hgets]
  rcases h2 : s[i + 1]? with _ | b
  · exact hhead
  · obtain ⟨hlt2, hbeq⟩ := List.getElem?_eq_some.mp h2
    have hab : s[i] ≤ b := by
      rw [← hbeq]
      have h5 := hs.rel_get_of_le (a := ⟨i, hilt⟩) (b := ⟨i + 1, hlt2⟩)
        (Fin.mk_le_mk.mpr (Nat.le_succ i))
      simpa [List.get_eq_getElem] using h5
    have h6 : 0 ≤ (p - i) * (b - s[i]) := mul_nonneg hf0 (by linarith)
    calc s[0] ≤ s[i] := hhead
    _ ≤ s[i] + (p - i) * (b - s[i]) := by linarith

theorem interpSorted_mono (s : List ℚ) (hs : List.Sorted (· ≤ ·) s)
    (p1 p2 : ℚ) (hp0 : 0 ≤ p1) (h12 : p1 ≤ p2) (hp2 : p2 ≤ (s.length : ℚ) - 1) :
    interpSorted s p1 ≤ interpSorted s p2 := by
  have hp20 : 0 ≤ p2 := le_trans hp0 h12
  have hp11 : p1 ≤ (s.length : ℚ) - 1 := le_trans h12 hp2
  set i1 := (⌊p1⌋).toNat with hi1def
  set i2 := (⌊p2⌋).toNat with hi2def
  have hc1 : (i1 : ℚ) = ((⌊p1⌋ : ℤ) : ℚ) := toNat_floor_cast p1 hp0
  have hc2 : (i2 : ℚ) = ((⌊p2⌋ : ℤ) : ℚ) := toNat_floor_cast p2 hp20
  have hle1 : (i1 : ℚ) ≤ p1 := by rw [hc1]; exact Int.floor_le p1
  have hle2 : (i2 : ℚ) ≤ p2 := by rw [hc2]; exact Int.floor_le p2
  have hf10 : (0 : ℚ) ≤ p1 - i1 := by linarith
  have hf20 : (0 : ℚ) ≤ p2 - i2 := by linarith
  have hf11 : p1 - (i1 : ℚ) < 1 := by
    have h4 := Int.lt_floor_add_one p1
    rw [← hc1] at h4
    linarith
  have hlt1 : i1 < s.length := toNat_floor_lt_length s p1 hp0 hp11
  have hlt2 : i2 < s.length := toNat_floor_lt_length s p2 hp20 hp2
  have hi12 : i1 ≤ i2 := by
    have h5 : ⌊p1⌋ ≤ ⌊p2⌋ := Int.floor_le_floor h12
    omega
  have hg1 : s[i1]? = some s[i1] := List.getElem?_eq_getElem hlt1
  have hg2 : s[i2]? = some s[i2] := List.getElem?_eq_getElem hlt2
  have hrhs : s[i2] ≤ interpSorted s p2 := by
    unfold interpSorted
    rw [← hi2def, hg2]
    rcases hb2 : s[i2 + 1]? with _ | b2
    · exact le_refl _
    · obtain ⟨hlt2b, hbeq2⟩ := List.getElem?_eq_some.mp hb2
      have hab2 : s[i2] ≤ b2 := by
        rw [← hbeq2]
        have h5 := hs.rel_get_of_le (a := ⟨i2, hlt2⟩) (b := ⟨i2 + 1, hlt2b⟩)
          (Fin.mk_le_mk.mpr (Nat.le_succ i2))
        simpa [List.get_eq_getElem] using h5
      dsimp only
      nlinarith [mul_nonneg hf20 (sub_nonneg.mpr hab2)]
  by_cases hii : i1 = i2
  · unfold interpSorted
    rw [← hi1def, ← hi2def, ← hii, hg1]
    rcases hb1 : s[i1 + 1]? with _ | b1
    · exact le_refl _
    · obtain ⟨hlt1b, hbeq1⟩ := List.getElem?_eq_some.mp hb1
      have hab1 : s[i1] ≤ b1 := by
        rw [← hbeq1]
        have h5 := hs.rel_get_of_le (a := ⟨i1, hlt1⟩) (b := ⟨i1 + 1, hlt1b⟩)
          (Fin.mk_le_mk.mpr (Nat.le_succ i1))
        simpa [List.get_eq_getElem] using h5
      have h6 : (p1 - i1) * (b1 - s[i1]) ≤ (p2 - i1) * (b1 - s[i1]) := by
        apply mul_le_mul_of_nonneg_right _ (sub_nonneg.mpr hab1)
        have : (i1 : ℚ) = (i2 : ℚ) := by exact_mod_cast congrArg (Nat.cast : ℕ → ℚ) hii
        linarith
      dsimp only
      linarith
  · have hi12s : i1 + 1 ≤ i2 := Nat.succ_le_of_lt (lt_of_le_of_ne hi12 hii)
    have hlt1b : i1 + 1 < s.length := lt_of_le_of_lt hi12s hlt2
    have hg1b : s[i1 + 1]? = some s[i1 + 1] := List.getElem?_eq_getElem hlt1b
    have hab1 : s[i1] ≤ s[i1 + 1] := by
      have h5 := hs.rel_get_of_le (a := ⟨i1, hlt1⟩) (b := ⟨i1 + 1, hlt1b⟩)
        (Fin.mk_le_mk.mpr (Nat.le_succ i1))
      simpa [List.get_eq_getElem] using h5
    have hmid : s[i1 + 1] ≤ s[i2] := by
      have h5 := hs.rel_get_of_le (a := ⟨i1 + 1, hlt1b⟩) (b := ⟨i2, hlt2⟩)
        (Fin.mk_le_mk.mpr hi12s)
      simpa [List.get_eq_getElem] using h5
    have hlhs : interpSorted s p1 ≤ s[i1 + 1] := by
      unfold interpSorted
      rw [← hi1def, hg1, hg1b]
      dsimp only
      nlinarith [mul_nonneg (sub_nonneg.mpr hf11.le) (sub_nonneg.mpr hab1)]
    calc interpSorted s p1 ≤ s[i1 + 1] := hlhs
    _ ≤ s[i2] := hmid
    _ ≤ interpSorted s p2 := hrhs

theorem insertionSort_ne_nil (l : List ℚ) (hne : l ≠ []) :
    List.insertionSort (· ≤ ·) l ≠ [] := by
  intro h
  have hp := List.perm_insertionSort (· ≤ ·) l
  rw [h] at hp
  exact hne hp.symm.eq_nil

theorem one_le_sort_length (l : List ℚ) (hne : l ≠ []) :
    (1 : ℚ) ≤ ((List.insertionSort (· ≤ ·) l).length : ℚ) := by
  have h1 : 0 < (List.insertionSort (· ≤ ·) l).length :=
    List.length_pos.mpr (insertionSort_ne_nil l hne)
  exact_mod_cast h1

theorem npPercentile_exists_le (l : List ℚ) (hne : l ≠ []) (q : ℚ)
    (hq0 : 0 ≤ q) (hq1 : q ≤ 100) :
    ∃ a ∈ l, a ≤ npPercentile l q := by
  have hn1 := one_le_sort_length l hne
  have hp0 : 0 ≤ q * (((List.insertionSort (· ≤ ·) l).length : ℚ) - 1) / 100 :=
    div_nonneg (mul_nonneg hq0 (by linarith)) (by norm_num)
  have hp1 : q * (((List.insertionSort (· ≤ ·) l).length : ℚ) - 1) / 100
      ≤ ((List.insertionSort (· ≤ ·) l).length : ℚ) - 1 := by
    rw [div_le_iff₀ (by norm_num : (0:ℚ) < 100)]
    nlinarith
  obtain ⟨a, ha, hle⟩ := interpSorted_ge_head (List.insertionSort (· ≤ ·) l)
    (List.sorted_insertionSort _ l) _ hp0 hp1 (insertionSort_ne_nil l hne)
  refine ⟨a, (List.mem_insertionSort _).mp ha, ?_⟩
  unfold npPercentile
  exact hle

theorem npPercentile_mono (l : List ℚ) (hne : l ≠ []) {q1 q2 : ℚ}
    (h0 : 0 ≤ q1) (h12 : q1 ≤ q2) (h100 : q2 ≤ 100) :
    npPercentile l q1 ≤ npPercentile l q2 := by
  have hn1 := one_le_sort_length l hne
  have hp0 : 0 ≤ q1 * (((List.insertionSort (· ≤ ·) l).length : ℚ) - 1) / 100 :=
    div_nonneg (mul_nonneg h0 (by linarith)) (by norm_num)
  have hp12 : q1 * (((List.insertionSort (· ≤ ·) l).length : ℚ) - 1) / 100
      ≤ q2 * (((List.insertionSort (· ≤ ·) l).length : ℚ) - 1) / 100 := by
    apply div_le_div_of_nonneg_right ?_ (by norm_num)
    exact mul_le_mul_of_nonneg_right h12 (by linarith)
  have hp2 : q2 * (((List.insertionSort (· ≤ ·) l).length : ℚ) - 1) / 100
      ≤ ((List.insertionSort (· ≤ ·) l).length : ℚ) - 1 := by
    rw [div_le_iff₀ (by norm_num : (0:ℚ) < 100)]
    nlinarith
  unfold npPercentile
  exact interpSorted_mono (List.insertionSort (· ≤ ·) l)
    (List.sorted_insertionSort _ l) _ _ hp0 hp12 hp2

theorem npMean_le_of_forall_le (l : List ℚ) (v : ℚ) (hne : l ≠ [])
    (h : ∀ x ∈ l, x ≤ v) : npMean l ≤ v := by
  unfold npMean
  have hlen : (0 : ℚ) < l.length := by exact_mod_cast List.length_pos.mpr hne
  rw [div_le_iff₀ hlen]
  have h2 := List.sum_le_card_nsmul l v h
  rw [nsmul_eq_mul] at h2
  linarith

theorem filter_le_split (l : List ℚ) (v1 v2 : ℚ) (hv : v1 ≤ v2) :
    (l.filter fun r => decide (r ≤ v2)).sum
        = (l.filter fun r => decide (r ≤ v1)).sum
          + (l.filter fun r => decide (v1 < r ∧ r ≤ v2)).sum ∧
    (l.filter fun r => decide (r ≤ v2)).length
        = (l.filter fun r => decide (r ≤ v1)).length
          + (l.filter fun r => decide (v1 < r ∧ r ≤ v2)).length := by
  induction l with
  | nil => simp
  | cons x t ih =>
      by_cases h1 : x ≤ v1
      · have h2 : x ≤ v2 := le_trans h1 hv
        have h4 : ¬(v1 < x) := not_lt.mpr h1
        refine ⟨?_, ?_⟩
        · simp [List.filter_cons, h1, h2, h4, ih.1]
          ring
        · simp [List.filter_cons, h1, h2, h4, ih.2]
          omega
      · have h4 : v1 < x := not_le.mp h1
        by_cases h2 : x ≤ v2
        · refine ⟨?_, ?_⟩
          · simp [List.filter_cons, h1, h2, h4, ih.1]
            ring
          · simp [List.filter_cons, h1, h2, h4, ih.2]
            omega
        · refine ⟨?_, ?_⟩
          · simp [List.filter_cons, h1, h2, h4, ih.1]
          · simp [List.filter_cons, h1, h2, h4, ih.2]

theorem cvarAt_mono (l : List ℚ) (v1 v2 : ℚ) (h12 : v1 ≤ v2)
    (hne : (l.filter fun r => decide (r ≤ v1)) ≠ []) :
    cvarAt l v1 ≤ cvarAt l v2 := by
  obtain ⟨hsum, hlen⟩ := filter_le_split l v1 v2 h12
  unfold cvarAt npMean
  rw [hsum, hlen]
  have hA_le : (l.filter fun r => decide (r ≤ v1)).sum
      ≤ ((l.filter fun r => decide (r ≤ v1)).length : ℚ) * v1 := by
    have h2 := List.sum_le_card_nsmul (l.filter fun r => decide (r ≤ v1)) v1 ?_
    · rw [nsmul_eq_mul] at h2
      exact h2
    · intro x hx
      have := (List.mem_filter.mp hx).2
      simpa using this
  have hC_ge : ((l.filter fun r => decide (v1 < r ∧ r ≤ v2)).length : ℚ) * v1
      ≤ (l.filter fun r => decide (v1 < r ∧ r ≤ v2)).sum := by
    have h2 := List.card_nsmul_le_sum (l.filter fun r => decide (v1 < r ∧ r ≤ v2)) v1 ?_
    · rw [nsmul_eq_mul] at h2
      exact h2
    · intro x hx
      have h3 := (List.mem_filter.mp hx).2
      simp only [decide_eq_true_eq] at h3
      exact le_of_lt h3.1
  have hApos : (0 : ℚ) < (l.filter fun r => decide (r ≤ v1)).length := by
    exact_mod_cast List.length_pos.mpr hne
  have hCpos : (0 : ℚ) ≤ (l.filter fun r => decide (v1 < r ∧ r ≤ v2)).length := by
    positivity
  rw [div_le_div_iff₀ hApos (by push_cast; linarith)]
  push_cast
  nlinarith [mul_le_mul_of_nonneg_right hA_le hCpos,
    mul_le_mul_of_nonneg_right hC_ge (le_of_lt hApos)]

/-- C2: for every nonempty return series, the per-window risk metrics of
`get_risk_metrics` satisfy CVaR(95) ≤ VaR(95) and CVaR(99) ≤ CVaR(95), with
VaR(95) and VaR(99) the 5th and 1st percentiles of the returns and CVaR the
mean of the returns at or below the corresponding VaR. -/
theorem riskWindow_cvar_relations (rs : List ℚ) (h : rs ≠ []) :
    (riskWindow rs).cvar95 ≤ (riskWindow rs).var95 ∧
    (riskWindow rs).cvar99 ≤ (riskWindow rs).cvar95 := by
  have hc95 : (riskWindow rs).cvar95 = cvarAt rs (npPercentile rs 5) := rfl
  have hc99 : (riskWindow rs).cvar99 = cvarAt rs (npPercentile rs 1) := rfl
  have hv95 : (riskWindow rs).var95 = npPercentile rs 5 := rfl
  obtain ⟨a95, ha95, hle95⟩ := npPercentile_exists_le rs h 5 (by norm_num) (by norm_num)
  obtain ⟨a99, ha99, hle99⟩ := npPercentile_exists_le rs h 1 (by norm_num) (by norm_num)
  have hfne95 : (rs.filter fun r => decide (r ≤ npPercentile rs 5)) ≠ [] :=
    List.ne_nil_of_mem (List.mem_filter.mpr ⟨ha95, by simpa using hle95⟩)
  have hfne99 : (rs.filter fun r => decide (r ≤ npPercentile rs 1)) ≠ [] :=
    List.ne_nil_of_mem (List.mem_filter.mpr ⟨ha99, by simpa using hle99⟩)
  constructor
  · rw [hc95, hv95]
    unfold cvarAt
    apply npMean_le_of_forall_le _ _ hfne95
    intro x hx
    have h2 := (List.mem_filter.mp hx).2
    simpa using h2
  · rw [hc99, hc95]
    exact cvarAt_mono rs _ _
      (npPercentile_mono rs h (by norm_num) (by norm_num) (by norm_num)) hfne99

theorem riskWindow_cvar_relations_witness :
    (([1, -2, 3] : List ℚ) ≠ []) ∧
    ((riskWindow [1, -2, 3]).cvar95 ≤ (riskWindow [1, -2, 3]).var95 ∧
     (riskWindow [1, -2, 3]).cvar99 ≤ (riskWindow [1, -2, 3]).cvar95) :=
  ⟨by simp, riskWindow_cvar_relations [1, -2, 3] (by simp)⟩

theorem interpSorted_replicate (n : ℕ) (x p : ℚ) (hp0 : 0 ≤ p)
    (hp1 : p ≤ (n : ℚ) - 1) : interpSorted (List.replicate n x) p = x := by
  have hn : (⌊p⌋).toNat < n := by
    have h2 := toNat_floor_lt_length (List.replicate n x) p hp0
      (by simpa using hp1)
    simpa using h2
  unfold interpSorted
  have hg : (List.replicate n x)[(⌊p⌋).toNat]? = some x := by
    simp [List.getElem?_replicate, hn]
  rw [hg]
  by_cases h2 : (⌊p⌋).toNat + 1 < n
  · have hg2 : (List.replicate n x)[(⌊p⌋).toNat + 1]? = some x := by
      simp [List.getElem?_replicate, h2]
    rw [hg2]
    dsimp only
    ring
  · have hg2 : (List.replicate n x)[(⌊p⌋).toNat + 1]? = none := by
      rw [List.getElem?_replicate, if_neg h2]
    rw [hg2]

theorem npPercentile_replicate (n : ℕ) (x q : ℚ) (hn : n ≠ 0)
    (hq0 : 0 ≤ q) (hq1 : q ≤ 100) :
    npPercentile (List.replicate n x) q = x := by
  have hn1 : (1 : ℚ) ≤ (n : ℚ) := by
    exact_mod_cast Nat.one_le_iff_ne_zero.mpr hn
  have hsorted : List.Sorted (· ≤ ·) (List.replicate n x) :=
    List.pairwise_replicate.mpr (Or.inr (le_refl x))
  unfold npPercentile
  dsimp only
  rw [hsorted.insertionSort_eq, List.length_replicate]
  apply interpSorted_replicate
  · exact div_nonneg (mul_nonneg hq0 (by linarith)) (by norm_num)
  · rw [div_le_iff₀ (by norm_num : (0:ℚ) < 100)]
    nlinarith

theorem scanl_replicate (f : ℚ → ℚ → ℚ) (x y : ℚ) (hf : f x y = x) (k : ℕ) :
    List.scanl f x (List.replicate k y) = List.replicate (k + 1) x := by
  induction k with
  | zero => rfl
  | succ m ih =>
      rw [List.replicate_succ, List.scanl_cons, hf, ih]
      rfl

theorem foldl_replicate (f : ℚ → ℚ → ℚ) (a y : ℚ) (hf : f a y = a) (k : ℕ) :
    List.foldl f a (List.replicate k y) = a := by
  induction k with
  | zero => rfl
  | succ m ih =>
      rw [List.replicate_succ, List.foldl_cons, hf, ih]

theorem filter_replicate_true (p : ℚ → Bool) (a : ℚ) (hp : p a = true) (n : ℕ) :
    (List.replicate n a).filter p = List.replicate n a := by
  induction n with
  | zero => rfl
  | succ m ih =>
      rw [List.replicate_succ, List.filter_cons, if_pos (by simp [hp]), ih]

theorem npMean_replicate (n : ℕ) (c : ℚ) (hn : n ≠ 0) :
    npMean (List.replicate n c) = c := by
  unfold npMean
  rw [List.sum_replicate, nsmul_eq_mul, List.length_replicate]
  have h2 : ((n : ℚ)) ≠ 0 := by exact_mod_cast hn
  field_simp

theorem sampleVar_replicate_zero (n : ℕ) (hn : n ≠ 0) :
    sampleVar (List.replicate n (0 : ℚ)) = 0 := by
  unfold sampleVar
  rw [npMean_replicate n 0 hn, List.map_replicate]
  norm_num

theorem runningMax_cons (x : ℚ) (xs : List ℚ) :
    runningMax (x :: xs) = List.scanl max x xs := rfl

theorem seriesMin_cons (x : ℚ) (xs : List ℚ) :
    seriesMin (x :: xs) = List.foldl min x xs := rfl

theorem cumprod_replicate_one (n : ℕ) :
    cumprod (List.replicate n (1 : ℚ)) = List.replicate n 1 := by
  unfold cumprod
  rw [scanl_replicate (· * ·) 1 1 (mul_one 1) n, List.replicate_succ, List.tail_cons]

theorem runningMax_replicate (n : ℕ) (hn : n ≠ 0) (x : ℚ) :
    runningMax (List.replicate n x) = List.replicate n x := by
  cases n with
  | zero => exact absurd rfl hn
  | succ k =>
      rw [List.replicate_succ, runningMax_cons,
        scanl_replicate max x x (max_self x) k, ← List.replicate_succ]

theorem seriesMin_replicate (n : ℕ) (hn : n ≠ 0) (x : ℚ) :
    seriesMin (List.replicate n x) = x := by
  cases n with
  | zero => exact absurd rfl hn
  | succ k =>
      rw [List.replicate_succ, seriesMin_cons,
        foldl_replicate min x x (min_self x) k]

theorem logReturns_cons_cons (x y : ℝ) (t : List ℝ) :
    logReturns (x :: y :: t) = Real.log (y / x) :: logReturns (y :: t) := rfl

theorem logReturns_replicate (n : ℕ) (x : ℝ) (hx : x ≠ 0) :
    logReturns (List.replicate (n + 1) x) = List.replicate n 0 := by
  induction n with
  | zero => rfl
  | succ k ih =>
      have h1 : List.replicate (k + 2) x = x :: x :: List.replicate k x := rfl
      rw [h1, logReturns_cons_cons, div_self hx, Real.log_one]
      have h2 : (x :: List.replicate k x) = List.replicate (k + 1) x := rfl
      rw [h2, ih]
      rfl

/-- C3 (spec scenario, 90 flat daily closes of 100): the log-return series is
89 zeros, on which `get_risk_metrics` yields VaR(95) = VaR(99) = CVaR(95) =
CVaR(99) = 0, max drawdown 0 and annualized volatility 0 — but the Sharpe
computation divides the nonzero excess-return mean −0.02/252 by the zero
standard deviation of the returns: a division by zero (−inf in the source's
float arithmetic), not the zero-guarded value the claim requires. -/
theorem risk_metrics_flat_series :
    logReturns (List.replicate 90 (100 : ℝ)) = List.replicate 89 0 ∧
    riskWindow (List.replicate 89 (0 : ℚ)) = ⟨0, 0, 0, 0, 0⟩ ∧
    annualizedVol (List.replicate 89 (0 : ℚ)) = 0 ∧
    sampleStd (List.replicate 89 (0 : ℚ)) = 0 ∧
    npMean (excessReturns (List.replicate 89 (0 : ℚ))) ≠ 0 := by
  have hstd : sampleStd (List.replicate 89 (0 : ℚ)) = 0 := by
    unfold sampleStd
    rw [sampleVar_replicate_zero 89 (by norm_num)]
    simp
  have hperc : ∀ q : ℚ, 0 ≤ q → q ≤ 100 →
      npPercentile (List.replicate 89 (0 : ℚ)) q = 0 := fun q h1 h2 =>
    npPercentile_replicate 89 0 q (by norm_num) h1 h2
  have hcvar : cvarAt (List.replicate 89 (0 : ℚ)) 0 = 0 := by
    unfold cvarAt
    rw [filter_replicate_true _ _ (by simp) 89, npMean_replicate 89 0 (by norm_num)]
  refine ⟨logReturns_replicate 89 100 (by norm_num), ?_, ?_, hstd, ?_⟩
  · unfold riskWindow
    have hmap : (List.replicate 89 (0 : ℚ)).map (fun r => 1 + r)
        = List.replicate 89 1 := by
      rw [List.map_replicate]
      norm_num
    have hcum : cumprod (List.replicate 89 (1 : ℚ)) = List.replicate 89 1 :=
      cumprod_replicate_one 89
    have hrmax : runningMax (List.replicate 89 (1 : ℚ)) = List.replicate 89 1 :=
      runningMax_replicate 89 (by norm_num) 1
    have hdraw : List.zipWith (fun c m => c / m - 1)
        (List.replicate 89 (1 : ℚ)) (List.replicate 89 (1 : ℚ))
        = List.replicate 89 0 := by
      rw [List.zipWith_replicate]
      norm_num
    have hmin : seriesMin (List.replicate 89 (0 : ℚ)) = 0 :=
      seriesMin_replicate 89 (by norm_num) 0
    simp only [RiskWindowMetrics.mk.injEq]
    rw [hmap, hcum, hrmax, hdraw]
    refine ⟨hperc 5 (by norm_num) (by norm_num), hperc 1 (by norm_num) (by norm_num),
      ?_, ?_, hmin⟩
    · rw [hperc 5 (by norm_num) (by norm_num)]
      exact hcvar
    · rw [hperc 1 (by norm_num) (by norm_num)]
      exact hcvar
  · unfold annualizedVol
    rw [hstd, zero_mul]
  · unfold excessReturns
    rw [List.map_replicate, npMean_replicate 89 _ (by norm_num)]
    norm_num

end Bookman
